import Mathlib

/-!
Verification of the ADS-B ingestion pipeline (`src/app.py`).

The development shallowly embeds the ingestion loop `decoder_daemon`
(lines 34-72 of `app.py`) and the connection helper `connect_tcpserver`
(lines 75-92).  Bytes are `Nat` values below 256; Python strings are Lean
`String`s; a Python exception that would propagate out of a statement is
modelled by an `Option PyErr` component of the result (together with the
state at the moment the exception is raised, since Python mutations that
already happened stay visible).

The external collaborators that are not part of `src/` (the decode
capability `ADSBDecoder`, the checksum capability `msg_crc`, and the byte
scanner `socket_find`, all imported from `controller.decoder`) are
modelled from the spec, as marked on their definitions.
-/

namespace ADSB

/-- Value of one hexadecimal digit character, as accepted by Python
`int(s, 16)` (codes 48-57 are `0`-`9`, 97-102 are `a`-`f`, 65-70 are
`A`-`F`). -/
def hexDigitVal (c : Char) : Option Nat :=
  if 48 ≤ c.toNat ∧ c.toNat ≤ 57 then some (c.toNat - 48)
  else if 97 ≤ c.toNat ∧ c.toNat ≤ 102 then some (c.toNat - 87)
  else if 65 ≤ c.toNat ∧ c.toNat ≤ 70 then some (c.toNat - 55)
  else none

/-- ASCII whitespace stripped by Python `int(s, 16)` before parsing
(space, tab, newline, carriage return, vertical tab, form feed). -/
def pyWhitespace (c : Char) : Bool :=
  c.toNat == 32 || c.toNat == 9 || c.toNat == 10 || c.toNat == 13 ||
  c.toNat == 11 || c.toNat == 12

/-- Digits of a hexadecimal numeral after its first digit, with Python's
underscore rule: an underscore must be followed by a digit. -/
def parseHexRest : List Char → Nat → Option Nat
  | [], acc => some acc
  | c :: cs, acc =>
    if c = '_' then
      match cs with
      | c2 :: cs2 =>
        match hexDigitVal c2 with
        | some d => parseHexRest cs2 (acc * 16 + d)
        | none => none
      | [] => none
    else
      match hexDigitVal c with
      | some d => parseHexRest cs (acc * 16 + d)
      | none => none

/-- A nonempty run of hexadecimal digits (underscores allowed between
digits, not leading). -/
def parseHexDigits : List Char → Option Nat
  | [] => none
  | c :: cs =>
    match hexDigitVal c with
    | some d => parseHexRest cs d
    | none => none

/-- Optional sign, as accepted by Python `int(s, 16)`. -/
def afterSign (cs : List Char) : Int × List Char :=
  match cs with
  | c :: rest =>
    if c = '+' then (1, rest)
    else if c = '-' then (-1, rest)
    else (1, cs)
  | [] => (1, cs)

/-- Optional `0x`/`0X` base marker (with Python's optional single
underscore right after it). -/
def afterBase (cs : List Char) : List Char :=
  match cs with
  | c0 :: c1 :: rest =>
    if c0 = '0' ∧ (c1 = 'x' ∨ c1 = 'X') then
      match rest with
      | r :: tail => if r = '_' then tail else rest
      | [] => rest
    else cs
  | _ => cs

/-- Code points at or above 127 that CPython's `int()` pre-parse
transform maps to a space (the Unicode whitespace set). -/
def unicodeSpaceHigh (n : Nat) : Bool :=
  n == 133 || n == 160 || n == 5760 || (8192 ≤ n && n ≤ 8202) ||
  n == 8232 || n == 8233 || n == 8239 || n == 8287 || n == 12288

/-- First code points of the runs of Unicode decimal-digit characters
(category Nd) above ASCII; each run holds the digits 0-9 consecutively.
Tables of Unicode 15.0, as compiled into current CPython. -/
def ndRangeStarts : List Nat :=
  [0x660, 0x6F0, 0x7C0, 0x966, 0x9E6, 0xA66, 0xAE6, 0xB66, 0xBE6, 0xC66,
   0xCE6, 0xD66, 0xDE6, 0xE50, 0xED0, 0xF20, 0x1040, 0x1090, 0x17E0,
   0x1810, 0x1946, 0x19D0, 0x1A80, 0x1A90, 0x1B50, 0x1BB0, 0x1C40,
   0x1C50, 0xA620, 0xA8D0, 0xA900, 0xA9D0, 0xA9F0, 0xAA50, 0xABF0,
   0xFF10, 0x104A0, 0x10D30, 0x11066, 0x110F0, 0x11136, 0x111D0,
   0x112F0, 0x11450, 0x114D0, 0x11650, 0x116C0, 0x11730, 0x118E0,
   0x11950, 0x11C50, 0x11D50, 0x11DA0, 0x11F50, 0x16A60, 0x16AC0,
   0x16B50, 0x1D7CE, 0x1D7D8, 0x1D7E2, 0x1D7EC, 0x1D7F6, 0x1E140,
   0x1E2F0, 0x1E4F0, 0x1E950, 0x1FBF0]

/-- Decimal value of a Unicode decimal-digit code point above ASCII
(`Py_UNICODE_TODECIMAL`). -/
def unicodeDecimal (n : Nat) : Option Nat :=
  match ndRangeStarts.find? (fun b => b ≤ n && n ≤ b + 9) with
  | some b => some (n - b)
  | none => none

/-- CPython's transform of one character before `int()` parses the
string: code points below 127 pass through unchanged, Unicode
whitespace becomes a space, a Unicode decimal digit becomes its ASCII
digit, and any other character becomes `?` (which no numeral syntax
accepts, so the parse fails). -/
def pyTransformChar (c : Char) : Char :=
  if c.toNat < 127 then c
  else if unicodeSpaceHigh c.toNat then ' '
  else
    match unicodeDecimal c.toNat with
    | some d => Char.ofNat (48 + d)
    | none => '?'

/-- Model of Python `int(s, 16)` on a character list: first apply
CPython's per-character transform (Unicode digits and whitespace to
ASCII), then strip ASCII whitespace, optional sign, optional base
marker, then at least one hex digit.  `none` models the `ValueError`
raised on anything else. -/
def pyIntHexChars (cs : List Char) : Option Int :=
  let tcs := cs.map pyTransformChar
  let core :=
    ((tcs.dropWhile (fun c => pyWhitespace c)).reverse.dropWhile
        (fun c => pyWhitespace c)).reverse
  let sc := afterSign core
  (parseHexDigits (afterBase sc.2)).map (fun n => sc.1 * (n : Int))

/-- Strict UTF-8 decoding of a byte list, as Python
`bytes.decode("utf-8")`: rejects stray continuation bytes, overlong
encodings, surrogates and values above U+10FFFF.  `none` models the
`UnicodeDecodeError`. -/
def utf8Decode : List Nat → Option (List Char)
  | [] => some []
  | b :: bs =>
    if b < 128 then (utf8Decode bs).map (fun cs => Char.ofNat b :: cs)
    else if b < 194 then none
    else if b < 224 then
      match bs with
      | b2 :: bs2 =>
        if 128 ≤ b2 ∧ b2 < 192 then
          (utf8Decode bs2).map
            (fun cs => Char.ofNat ((b - 192) * 64 + (b2 - 128)) :: cs)
        else none
      | [] => none
    else if b < 240 then
      match bs with
      | b2 :: b3 :: bs3 =>
        if (if b = 224 then 160 ≤ b2 ∧ b2 < 192
            else if b = 237 then 128 ≤ b2 ∧ b2 < 160
            else 128 ≤ b2 ∧ b2 < 192) ∧ 128 ≤ b3 ∧ b3 < 192 then
          (utf8Decode bs3).map
            (fun cs =>
              Char.ofNat ((b - 224) * 4096 + (b2 - 128) * 64 + (b3 - 128)) :: cs)
        else none
      | _ => none
    else if b < 245 then
      match bs with
      | b2 :: b3 :: b4 :: bs4 =>
        if (if b = 240 then 144 ≤ b2 ∧ b2 < 192
            else if b = 244 then 128 ≤ b2 ∧ b2 < 144
            else 128 ≤ b2 ∧ b2 < 192) ∧
            128 ≤ b3 ∧ b3 < 192 ∧ 128 ≤ b4 ∧ b4 < 192 then
          (utf8Decode bs4).map
            (fun cs =>
              Char.ofNat
                ((b - 240) * 262144 + (b2 - 128) * 4096 +
                  (b3 - 128) * 64 + (b4 - 128)) :: cs)
        else none
      | _ => none
    else none

/-- The Shared Packet State (`model.packet.ADSBPacket`).  Modelled from
the spec: the module is not under `src/`; §3 gives its fields (message,
identifier, callsign, altitude, timestamp in ms) and its lifecycle
(created once with all fields empty/zero, mutated in place). -/
structure ADSBPacket where
  message : String
  icao : String
  callsign : String
  altitude : Int
  timestamp : Int
deriving DecidableEq, Repr

/-- Modelled from the spec: the initial Shared Packet State, all fields
empty/zero (§3, "created once at process start with all fields
empty/zero"). -/
def initPacket : ADSBPacket :=
  { message := "", icao := "", callsign := "", altitude := 0, timestamp := 0 }

/-- Internal state of the decode capability (`controller.decoder.ADSBDecoder`).
Modelled from the spec: the module is not under `src/`.  `set_msg` stores
the current message; each getter is independently fallible (§6), and §4.4
requires the net effect that a failed field leaves the State field
unchanged ("stale-data is visible, not cleared") even though the caller in
`app.py` assigns the getter's value unconditionally — so the model keeps,
per field, the last successfully decoded value and returns it when the
decode of that field fails. -/
structure ADSBDecoder where
  msg : String
  icao : String
  callsign : String
  altitude : Int
deriving DecidableEq, Repr

/-- Modelled from the spec: decoder created at process start, no message
set, cached fields empty/zero like the packet. -/
def initDecoder : ADSBDecoder :=
  { msg := "", icao := "", callsign := "", altitude := 0 }

/-- The pure external capabilities behind `controller.decoder`.  Modelled
from the spec (§1 OUT OF SCOPE): "given a raw message string, return a
derived field or report decode failure" for each of identifier, callsign
and altitude, and "given a raw message string, return whether it is
internally consistent" for the checksum (`msg_crc(text) -> (value, err)`,
with `err` true on integrity failure). -/
structure DecodeCap where
  icaoDec : String → Option String
  callsignDec : String → Option String
  altitudeDec : String → Option Int
  msgCRC : String → Nat × Bool

/-- Modelled from the spec: `ADSBDecoder.set_msg(text)` stores the
message to be decoded. -/
def setMsg (d : ADSBDecoder) (m : String) : ADSBDecoder :=
  { d with msg := m }

/-- Modelled from the spec: `get_icao() -> (value, err)`; on success the
decoded identifier is returned (and cached), on failure the last
successfully decoded value is returned with `err` set. -/
def getIcao (cap : DecodeCap) (d : ADSBDecoder) : (String × Bool) × ADSBDecoder :=
  match cap.icaoDec d.msg with
  | some v => ((v, false), { d with icao := v })
  | none => ((d.icao, true), d)

/-- Modelled from the spec: `get_callsign() -> (value, err)`, as
`getIcao`. -/
def getCallsign (cap : DecodeCap) (d : ADSBDecoder) : (String × Bool) × ADSBDecoder :=
  match cap.callsignDec d.msg with
  | some v => ((v, false), { d with callsign := v })
  | none => ((d.callsign, true), d)

/-- Modelled from the spec: `get_altitude() -> (value, err)`, as
`getIcao`. -/
def getAltitude (cap : DecodeCap) (d : ADSBDecoder) : (Int × Bool) × ADSBDecoder :=
  match cap.altitudeDec d.msg with
  | some v => ((v, false), { d with altitude := v })
  | none => ((d.altitude, true), d)

/-- A Python exception that can propagate out of one ingestion-loop
iteration. -/
inductive PyErr where
  | valueError
  | unicodeDecodeError
deriving DecidableEq, Repr

/-- State carried across iterations of `decoder_daemon`: the Shared
Packet State, the decoder's internal state, and instrumentation counting
invocations of the checksum capability (`msg_crc`, line 60) and of the
decode capability (`set_msg`, line 66). -/
structure SysState where
  packet : ADSBPacket
  decoder : ADSBDecoder
  crcCalls : Nat
  decodeCalls : Nat
deriving DecidableEq, Repr

/-- System state at thread start. -/
def initState : SysState :=
  { packet := initPacket, decoder := initDecoder, crcCalls := 0, decodeCalls := 0 }

/-- Downlink format derived at line 55 of `app.py`:
`df = int(msg[:2], 16) >> 3`.  `none` models the `ValueError` when the
first two characters do not parse; Python's `>>` on `int` is flooring
division by 8. -/
def dfOf (msg : String) : Option Int :=
  (pyIntHexChars (msg.data.take 2)).map (fun n => Int.fdiv n 8)

/-- Lines 55-72 of `decoder_daemon`: one iteration's handling of a framed
message string `msg`, with `now` the capture instant in milliseconds
(line 72's clock reading).  Returns the new state together with the
exception, if any, that escapes the iteration. -/
def processMsg (cap : DecodeCap) (st : SysState) (msg : String) (now : Int) :
    SysState × Option PyErr :=
  match dfOf msg with
  | none => (st, some PyErr.valueError)
  | some df =>
    if df = 17 ∨ df = 20 ∨ df = 21 then
      let err := (cap.msgCRC msg).2
      let st1 : SysState := { st with crcCalls := st.crcCalls + 1 }
      if err = true ∧ df = 17 then (st1, none)
      else if df ≠ 17 then (st1, none)
      else
        let d0 := setMsg st1.decoder msg
        let st2 : SysState := { st1 with decodeCalls := st1.decodeCalls + 1 }
        let ri := getIcao cap d0
        let rc := getCallsign cap ri.2
        let ra := getAltitude cap rc.2
        ({ st2 with
            packet :=
              { message := msg, icao := ri.1.1, callsign := rc.1.1,
                altitude := ra.1.1, timestamp := now },
            decoder := ra.2 }, none)
    else (st, none)

/-- Sequential processing of a list of framed messages with their capture
instants; the run stops at the first escaping exception (the thread
dies), returning the state reached at that point. -/
def runMsgs (cap : DecodeCap) : SysState → List (String × Int) → SysState × Option PyErr
  | st, [] => (st, none)
  | st, (m, now) :: rest =>
    match processMsg cap st m now with
    | (st', none) => runMsgs cap st' rest
    | (st', some e) => (st', some e)

/-- Modelled from the spec: `socket_find(sock, b"*")`
(`controller.decoder`, not under `src/`) scans incoming bytes one at a
time until the start sentinel `*` (byte 42) is observed, discarding
everything before it (§4.1 step 1).  Returns the stream after the
sentinel, or `none` when the finite modelled stream has no sentinel. -/
def socketFindStar : List Nat → Option (List Nat)
  | [] => none
  | b :: bs => if b = 42 then some bs else socketFindStar bs

/-- Lines 44-72 of `decoder_daemon`: one full iteration of the ingestion
loop on a byte stream.  After the start sentinel, `sock.recv(29)` yields
the next (up to) 29 bytes; a last byte other than `;` (byte 59) discards
the candidate (lines 51-52); otherwise the payload is UTF-8 decoded
(line 53) and handed to lines 55-72.  Returns the new state, the
remaining stream, and the escaping exception, if any. -/
def iterBytes (cap : DecodeCap) (st : SysState) (stream : List Nat) (now : Int) :
    (SysState × List Nat) × Option PyErr :=
  match socketFindStar stream with
  | none => ((st, []), none)
  | some rest =>
    let dataRecv := rest.take 29
    let remaining := rest.drop 29
    if dataRecv.getLast? = some 59 then
      match utf8Decode dataRecv.dropLast with
      | none => ((st, remaining), some PyErr.unicodeDecodeError)
      | some cs =>
        let r := processMsg cap st (String.mk cs) now
        ((r.1, remaining), r.2)
    else ((st, remaining), none)

/-- Outcome of the one OS-level `sock.connect` attempt, abstracting the
network environment. -/
inductive ConnOutcome where
  | ok
  | timedOut
  | refused
  | otherFailure
deriving DecidableEq, Repr

/-- The slice of Python socket state `connect_tcpserver` manipulates:
the configured timeout and whether the socket is connected. -/
structure PySocket where
  timeoutSet : Option Int
  connected : Bool
deriving DecidableEq, Repr

/-- Lines 75-92 of `app.py`: create a socket, install the timeout, make
one `connect` attempt, and return `(sock, err)` where `err` is true on
any failure (the bare `except:` catches every exception).  The `Nat`
component counts `connect` attempts.  A total function: no exception
escapes. -/
def connect_tcpserver (host : String) (port : Int) (timeout : Int)
    (outcome : ConnOutcome) : (PySocket × Bool) × Nat :=
  let sock : PySocket := { timeoutSet := some timeout, connected := false }
  match outcome with
  | ConnOutcome.ok => (({ sock with connected := true }, false), 1)
  | _ => ((sock, true), 1)

/-- A decode capability for concrete evaluations: every field decode
fails, the checksum reports no error. -/
def capNone : DecodeCap :=
  { icaoDec := fun _ => none, callsignDec := fun _ => none,
    altitudeDec := fun _ => none, msgCRC := fun _ => (0, false) }

/-- A decode capability for concrete evaluations: identifier and
altitude decode, callsign does not, checksum reports no error. -/
def capFull : DecodeCap :=
  { icaoDec := fun _ => some "4840D6", callsignDec := fun _ => none,
    altitudeDec := fun _ => some 38000, msgCRC := fun _ => (0, false) }

/-- A decode capability for concrete evaluations: checksum always
reports an error. -/
def capBadCRC : DecodeCap :=
  { icaoDec := fun _ => some "4840D6", callsignDec := fun _ => some "KLM123",
    altitudeDec := fun _ => some 38000, msgCRC := fun _ => (0, true) }

/-- ASCII bytes of a string, for concrete byte-stream inputs. -/
def asciiBytes (s : String) : List Nat :=
  s.data.map Char.toNat

/-! ## Theorems -/

/-- Helper: a message that does not pass both gates (downlink format 17
and clean checksum) leaves the packet and the decoder state untouched. -/
theorem processMsg_stable (cap : DecodeCap) (st : SysState) (msg : String)
    (now : Int) (h : ¬ (dfOf msg = some 17 ∧ (cap.msgCRC msg).2 = false)) :
    (processMsg cap st msg now).1.packet = st.packet ∧
      (processMsg cap st msg now).1.decoder = st.decoder := by
  unfold processMsg
  cases hdf : dfOf msg with
  | none => exact ⟨rfl, rfl⟩
  | some df =>
    dsimp only
    by_cases hdec : df = 17 ∨ df = 20 ∨ df = 21
    · rw [if_pos hdec]
      by_cases herr : (cap.msgCRC msg).2 = true ∧ df = 17
      · simp [herr]
      · rw [if_neg herr]
        by_cases h17 : df ≠ 17
        · simp [h17]
        · exfalso
          push_neg at h17
          subst h17
          refine h ⟨hdf, ?_⟩
          rcases Bool.eq_false_or_eq_true (cap.msgCRC msg).2 with hb | hb
          · exact absurd ⟨hb, rfl⟩ herr
          · exact hb
    · rw [if_neg hdec]
      exact ⟨rfl, rfl⟩

/-- Helper: the full result of one iteration on a message that passes
both gates (downlink format 17, clean checksum): every field the decode
capability yields is written to the packet and cached in the decoder, a
failed field falls back to the decoder's cached value, and the timestamp
is stamped with the capture instant. -/
theorem processMsg_pass (cap : DecodeCap) (st : SysState) (msg : String)
    (now : Int) (hdf : dfOf msg = some 17) (hcrc : (cap.msgCRC msg).2 = false) :
    processMsg cap st msg now =
      ({ packet :=
           { message := msg,
             icao := (cap.icaoDec msg).getD st.decoder.icao,
             callsign := (cap.callsignDec msg).getD st.decoder.callsign,
             altitude := (cap.altitudeDec msg).getD st.decoder.altitude,
             timestamp := now },
         decoder :=
           { msg := msg,
             icao := (cap.icaoDec msg).getD st.decoder.icao,
             callsign := (cap.callsignDec msg).getD st.decoder.callsign,
             altitude := (cap.altitudeDec msg).getD st.decoder.altitude },
         crcCalls := st.crcCalls + 1,
         decodeCalls := st.decodeCalls + 1 }, none) := by
  unfold processMsg
  rw [hdf]
  dsimp only
  rw [if_pos (Or.inl rfl)]
  rw [if_neg (by simp [hcrc])]
  rw [if_neg (by simp)]
  cases hi : cap.icaoDec msg <;> cases hc : cap.callsignDec msg <;>
    cases ha : cap.altitudeDec msg <;>
    simp [getIcao, getCallsign, getAltitude, setMsg, hi, hc, ha]

/-- Helper: no exception escapes one message iteration exactly when the
first two characters of the message parse as a hexadecimal integer. -/
theorem processMsg_err_iff (cap : DecodeCap) (st : SysState) (msg : String)
    (now : Int) :
    (processMsg cap st msg now).2 = none ↔ dfOf msg ≠ none := by
  unfold processMsg
  cases hdf : dfOf msg with
  | none => simp
  | some df =>
    dsimp only
    by_cases hdec : df = 17 ∨ df = 20 ∨ df = 21
    · rw [if_pos hdec]
      by_cases herr : (cap.msgCRC msg).2 = true ∧ df = 17
      · simp [herr]
      · rw [if_neg herr]
        by_cases h17 : df ≠ 17 <;> simp [h17]
    · rw [if_neg hdec]; simp

/-- Helper: after any iteration, each packet field that the dispatcher
writes agrees with the decoder's cached field (either both were just set
to the decoded value, or the packet received the cache's value). -/
def SyncState (st : SysState) : Prop :=
  st.packet.icao = st.decoder.icao ∧ st.packet.callsign = st.decoder.callsign ∧
    st.packet.altitude = st.decoder.altitude

/-- Helper: one iteration preserves packet/decoder agreement. -/
theorem processMsg_sync (cap : DecodeCap) (st : SysState) (msg : String)
    (now : Int) (h : SyncState st) : SyncState (processMsg cap st msg now).1 := by
  by_cases hpass : dfOf msg = some 17 ∧ (cap.msgCRC msg).2 = false
  · rw [processMsg_pass cap st msg now hpass.1 hpass.2]
    exact ⟨rfl, rfl, rfl⟩
  · have hs := processMsg_stable cap st msg now hpass
    unfold SyncState
    rw [hs.1, hs.2]
    exact h

/-- Helper: packet/decoder agreement holds in every reachable state. -/
theorem runMsgs_sync (cap : DecodeCap) (hist : List (String × Int))
    (st : SysState) (h : SyncState st) : SyncState (runMsgs cap st hist).1 := by
  induction hist generalizing st with
  | nil => exact h
  | cons p rest ih =>
    obtain ⟨m, now⟩ := p
    unfold runMsgs
    cases hr : processMsg cap st m now with
    | mk st' e =>
      have hst' : SyncState st' := by
        have := processMsg_sync cap st m now h
        rw [hr] at this
        exact this
      cases e with
      | none => exact ih st' hst'
      | some e => exact hst'

/-- C2: for a message that reaches the Decode Dispatcher (downlink
format 17, clean checksum), in any state reachable by the ingestion loop
from start-up, a field (identifier, callsign, altitude) whose decode
fails keeps the value it had before the message was processed, while a
field whose decode succeeds is written with the decoded value. -/
theorem decode_failure_keeps_field (cap : DecodeCap) (hist : List (String × Int))
    (st : SysState) (msg : String) (now : Int)
    (hreach : (runMsgs cap initState hist).1 = st)
    (hdf : dfOf msg = some 17) (hcrc : (cap.msgCRC msg).2 = false) :
    ((cap.icaoDec msg = none →
        (processMsg cap st msg now).1.packet.icao = st.packet.icao) ∧
      (∀ v, cap.icaoDec msg = some v →
        (processMsg cap st msg now).1.packet.icao = v)) ∧
    ((cap.callsignDec msg = none →
        (processMsg cap st msg now).1.packet.callsign = st.packet.callsign) ∧
      (∀ v, cap.callsignDec msg = some v →
        (processMsg cap st msg now).1.packet.callsign = v)) ∧
    ((cap.altitudeDec msg = none →
        (processMsg cap st msg now).1.packet.altitude = st.packet.altitude) ∧
      (∀ v, cap.altitudeDec msg = some v →
        (processMsg cap st msg now).1.packet.altitude = v)) := by
  have hsync : SyncState st := by
    rw [← hreach]
    exact runMsgs_sync cap hist initState ⟨rfl, rfl, rfl⟩
  obtain ⟨h1, h2, h3⟩ := hsync
  rw [processMsg_pass cap st msg now hdf hcrc]
  refine ⟨⟨?_, ?_⟩, ⟨?_, ?_⟩, ⟨?_, ?_⟩⟩
  · intro hi; dsimp only; rw [hi, h1]; rfl
  · intro v hv; dsimp only; rw [hv]; rfl
  · intro hc; dsimp only; rw [hc, h2]; rfl
  · intro v hv; dsimp only; rw [hv]; rfl
  · intro ha; dsimp only; rw [ha, h3]; rfl
  · intro v hv; dsimp only; rw [hv]; rfl

/-- Witness for C2 at the initial state with a concrete
downlink-format-17 message whose field decodes all fail. -/
theorem decode_failure_keeps_field_w :
    (runMsgs capNone initState []).1 = initState ∧
      dfOf "8D4840D6202CC371C32CE0576098" = some 17 ∧
      (capNone.msgCRC "8D4840D6202CC371C32CE0576098").2 = false ∧
      (processMsg capNone initState "8D4840D6202CC371C32CE0576098" 7).1.packet.icao =
        initState.packet.icao :=
  ⟨rfl, by decide, by decide,
    ((decode_failure_keeps_field capNone [] initState
        "8D4840D6202CC371C32CE0576098" 7 rfl (by decide) (by decide)).1.1) rfl⟩

/-- C5: a downlink-format-17 message with a clean checksum has every
successfully decoded field (identifier, callsign, altitude) written into
the Shared Packet State, and the timestamp is set to the capture
instant, which is at or after the previously held timestamp whenever the
clock has not gone backwards. -/
theorem valid_df17_writes_fields (cap : DecodeCap) (st : SysState) (msg : String)
    (now : Int) (hdf : dfOf msg = some 17) (hcrc : (cap.msgCRC msg).2 = false)
    (hts : st.packet.timestamp ≤ now) :
    (∀ v, cap.icaoDec msg = some v →
      (processMsg cap st msg now).1.packet.icao = v) ∧
    (∀ v, cap.callsignDec msg = some v →
      (processMsg cap st msg now).1.packet.callsign = v) ∧
    (∀ v, cap.altitudeDec msg = some v →
      (processMsg cap st msg now).1.packet.altitude = v) ∧
    st.packet.timestamp ≤ (processMsg cap st msg now).1.packet.timestamp := by
  rw [processMsg_pass cap st msg now hdf hcrc]
  refine ⟨?_, ?_, ?_, hts⟩ <;> (intro v hv; dsimp only; rw [hv]; rfl)

/-- Witness for C5 on the spec's end-to-end scenario message, with a
capability decoding identifier and altitude but not callsign. -/
theorem valid_df17_writes_fields_w :
    dfOf "8D4840D6202CC371C32CE0576098" = some 17 ∧
      (capFull.msgCRC "8D4840D6202CC371C32CE0576098").2 = false ∧
      initState.packet.timestamp ≤ 9 ∧
      (processMsg capFull initState "8D4840D6202CC371C32CE0576098" 9).1.packet.icao =
        "4840D6" :=
  ⟨by decide, by decide, by decide,
    ((valid_df17_writes_fields capFull initState "8D4840D6202CC371C32CE0576098" 9
        (by decide) (by decide) (by decide)).1) "4840D6" rfl⟩

/-- C9: redelivering an already-processed frame (one that completed an
iteration without an escaping exception) reproduces the same packet
field values for message, identifier, callsign and altitude — the
capabilities in the model are deterministic functions. -/
theorem redelivery_same_fields (cap : DecodeCap) (st : SysState) (msg : String)
    (now now' : Int) (st1 : SysState)
    (h : processMsg cap st msg now = (st1, none)) :
    (processMsg cap st1 msg now').2 = none ∧
      (processMsg cap st1 msg now').1.packet.message = st1.packet.message ∧
      (processMsg cap st1 msg now').1.packet.icao = st1.packet.icao ∧
      (processMsg cap st1 msg now').1.packet.callsign = st1.packet.callsign ∧
      (processMsg cap st1 msg now').1.packet.altitude = st1.packet.altitude := by
  have hdfne : dfOf msg ≠ none := by
    apply (processMsg_err_iff cap st msg now).1
    rw [h]
  by_cases hpass : dfOf msg = some 17 ∧ (cap.msgCRC msg).2 = false
  · obtain ⟨hdf, hcrc⟩ := hpass
    have hfst : st1 = (processMsg cap st msg now).1 := by rw [h]
    rw [processMsg_pass cap st msg now hdf hcrc] at hfst
    rw [processMsg_pass cap st1 msg now' hdf hcrc]
    subst hfst
    refine ⟨rfl, rfl, ?_, ?_, ?_⟩
    · cases hi : cap.icaoDec msg <;> simp [hi]
    · cases hc : cap.callsignDec msg <;> simp [hc]
    · cases ha : cap.altitudeDec msg <;> simp [ha]
  · have hfst : st1 = (processMsg cap st msg now).1 := by rw [h]
    have hs2 := processMsg_stable cap st1 msg now' hpass
    refine ⟨?_, ?_, ?_, ?_, ?_⟩
    · apply (processMsg_err_iff cap st1 msg now').2 hdfne
    · rw [hs2.1]
    · rw [hs2.1]
    · rw [hs2.1]
    · rw [hs2.1]

/-- Witness for C9: the scenario message processed twice from start-up
yields identical packet fields. -/
theorem redelivery_same_fields_w :
    processMsg capFull initState "8D4840D6202CC371C32CE0576098" 1 =
      ((processMsg capFull initState "8D4840D6202CC371C32CE0576098" 1).1, none) ∧
      ((processMsg capFull
          ((processMsg capFull initState "8D4840D6202CC371C32CE0576098" 1).1)
          "8D4840D6202CC371C32CE0576098" 2).1.packet.icao =
        (processMsg capFull initState "8D4840D6202CC371C32CE0576098" 1).1.packet.icao) :=
  ⟨by decide,
    (redelivery_same_fields capFull initState "8D4840D6202CC371C32CE0576098" 1 2
        ((processMsg capFull initState "8D4840D6202CC371C32CE0576098" 1).1)
        (by decide)).2.2.1⟩

/-- Helper: one iteration either keeps the stored message or stores a
message that passed both gates. -/
theorem processMsg_message_cases (cap : DecodeCap) (st : SysState) (msg : String)
    (now : Int) :
    (processMsg cap st msg now).1.packet.message = st.packet.message ∨
      ((processMsg cap st msg now).1.packet.message = msg ∧
        dfOf msg = some 17 ∧ (cap.msgCRC msg).2 = false) := by
  by_cases hpass : dfOf msg = some 17 ∧ (cap.msgCRC msg).2 = false
  · right
    rw [processMsg_pass cap st msg now hpass.1 hpass.2]
    exact ⟨rfl, hpass⟩
  · left
    rw [(processMsg_stable cap st msg now hpass).1]

/-- Helper: the C10 invariant is preserved along any run. -/
theorem runMsgs_message_inv (cap : DecodeCap) (hist : List (String × Int))
    (st : SysState)
    (h : st.packet.message = "" ∨
      (dfOf st.packet.message = some 17 ∧
        (cap.msgCRC st.packet.message).2 = false)) :
    (runMsgs cap st hist).1.packet.message = "" ∨
      (dfOf (runMsgs cap st hist).1.packet.message = some 17 ∧
        (cap.msgCRC (runMsgs cap st hist).1.packet.message).2 = false) := by
  induction hist generalizing st with
  | nil => exact h
  | cons p rest ih =>
    obtain ⟨m, now⟩ := p
    unfold runMsgs
    cases hr : processMsg cap st m now with
    | mk st' e =>
      have hst' : st'.packet.message = "" ∨
          (dfOf st'.packet.message = some 17 ∧
            (cap.msgCRC st'.packet.message).2 = false) := by
        rcases processMsg_message_cases cap st m now with hc | hc
        · rw [hr] at hc
          dsimp only at hc
          rw [hc]
          exact h
        · rw [hr] at hc
          dsimp only at hc
          right
          rw [hc.1]
          exact hc.2
      cases e with
      | none => exact ih st' hst'
      | some e => exact hst'

/-- C10: after any run of the ingestion loop from start-up, the message
field of the Shared Packet State is either its initial empty value or a
string whose derived downlink format is 17 and for which the checksum
capability reported no error when it was stored. -/
theorem stored_message_invariant (cap : DecodeCap) (hist : List (String × Int)) :
    (runMsgs cap initState hist).1.packet.message = "" ∨
      (dfOf (runMsgs cap initState hist).1.packet.message = some 17 ∧
        (cap.msgCRC (runMsgs cap initState hist).1.packet.message).2 = false) :=
  runMsgs_message_inv cap hist initState (Or.inl rfl)

/-- Helper: finding the start sentinel skips exactly the sentinel-free
part of the stream. -/
theorem socketFindStar_append (pre w : List Nat) (hpre : 42 ∉ pre) :
    socketFindStar (pre ++ 42 :: w) = some w := by
  induction pre with
  | nil => simp [socketFindStar]
  | cons b bs ih =>
    have hb : b ≠ 42 := fun h => hpre (h ▸ List.mem_cons_self b bs)
    rw [List.cons_append]
    unfold socketFindStar
    rw [if_neg hb]
    exact ih (fun h => hpre (List.mem_cons_of_mem b h))

/-- C6: when a start sentinel is followed by 29 bytes whose last byte is
not the terminator sentinel `;`, the Frame Reader produces no RawMessage
for that window — the state (packet, decoder, invocation counters) is
exactly the state before, so no filter, validator or decode invocation
happened — and scanning resumes on the stream after the window. -/
theorem bad_terminator_discards_window (cap : DecodeCap) (st : SysState)
    (now : Int) (pre chunk rest : List Nat)
    (hpre : 42 ∉ pre) (hlen : chunk.length = 29)
    (hterm : ¬ chunk.getLast? = some 59) :
    iterBytes cap st (pre ++ 42 :: (chunk ++ rest)) now = ((st, rest), none) := by
  unfold iterBytes
  rw [socketFindStar_append pre (chunk ++ rest) hpre]
  dsimp only
  rw [List.take_left' hlen, List.drop_left' hlen]
  rw [if_neg hterm]

/-- Witness for C6 on a concrete frame whose 30th byte is `,` instead of
`;`. -/
theorem bad_terminator_discards_window_w :
    42 ∉ asciiBytes "xy" ∧
      (asciiBytes "8D4840D6202CC371C32CE0576098,").length = 29 ∧
      ¬ (asciiBytes "8D4840D6202CC371C32CE0576098,").getLast? = some 59 ∧
      iterBytes capNone initState
          (asciiBytes "xy" ++ 42 :: (asciiBytes "8D4840D6202CC371C32CE0576098," ++ [42, 59])) 4 =
        ((initState, [42, 59]), none) :=
  ⟨by decide, by decide, by decide,
    bad_terminator_discards_window capNone initState 4 (asciiBytes "xy")
      (asciiBytes "8D4840D6202CC371C32CE0576098,") [42, 59]
      (by decide) (by decide) (by decide)⟩

/-- C4 counterexample: a well-framed 30-byte chunk whose 28-byte payload
starts with the non-hexadecimal characters `ZZ` makes the iteration
raise an uncaught `ValueError` at line 55 (`int(msg[:2], 16)`),
contradicting the claim that every delivered byte sequence completes an
iteration without an uncaught exception. -/
theorem iteration_raises_on_nonhex_payload :
    (iterBytes capNone initState
        (asciiBytes "*ZZ00000000000000000000000000;") 0).2 =
      some PyErr.valueError := by
  decide

/-- Helper: hexadecimal digit characters fall into the three ASCII
ranges. -/
theorem hexDigitVal_bounds (c : Char) (h : (hexDigitVal c).isSome) :
    (48 ≤ c.toNat ∧ c.toNat ≤ 57) ∨ (97 ≤ c.toNat ∧ c.toNat ≤ 102) ∨
      (65 ≤ c.toNat ∧ c.toNat ≤ 70) := by
  unfold hexDigitVal at h
  split_ifs at h with h1 h2 h3
  · exact Or.inl h1
  · exact Or.inr (Or.inl h2)
  · exact Or.inr (Or.inr h3)
  · simp at h

/-- Helper: a hexadecimal digit character is not Python whitespace. -/
theorem hexDigit_not_ws (c : Char) (h : (hexDigitVal c).isSome) :
    pyWhitespace c = false := by
  have hb := hexDigitVal_bounds c h
  simp only [pyWhitespace, Bool.or_eq_false_iff, beq_eq_false_iff_ne, ne_eq]
  rcases hb with ⟨h1, h2⟩ | ⟨h1, h2⟩ | ⟨h1, h2⟩ <;> omega

/-- Helper: a hexadecimal digit character is none of the special
characters of Python's integer-literal syntax. -/
theorem hexDigit_not_special (c : Char) (h : (hexDigitVal c).isSome) :
    c ≠ '+' ∧ c ≠ '-' ∧ c ≠ '_' ∧ c ≠ 'x' ∧ c ≠ 'X' := by
  have hb := hexDigitVal_bounds c h
  refine ⟨?_, ?_, ?_, ?_, ?_⟩ <;> (rintro rfl; revert hb; decide)

/-- Helper: CPython's pre-parse transform keeps a hexadecimal digit
character unchanged (its code point is below 127). -/
theorem pyTransformChar_hexDigit (c : Char) (h : (hexDigitVal c).isSome) :
    pyTransformChar c = c := by
  have hb := hexDigitVal_bounds c h
  unfold pyTransformChar
  rw [if_pos ?_]
  rcases hb with ⟨h1, h2⟩ | ⟨h1, h2⟩ | ⟨h1, h2⟩ <;> omega

/-- Helper: on a two-character string of hexadecimal digits, the Python
`int(s, 16)` model returns the value of the two digits as one byte. -/
theorem pyIntHexChars_two_hex (c1 c2 : Char) (h1 h2 : Nat)
    (hx1 : hexDigitVal c1 = some h1) (hx2 : hexDigitVal c2 = some h2) :
    pyIntHexChars [c1, c2] = some ((h1 * 16 + h2 : Nat) : Int) := by
  have hs1 : (hexDigitVal c1).isSome := by rw [hx1]; rfl
  have hs2 : (hexDigitVal c2).isSome := by rw [hx2]; rfl
  have hw1 := hexDigit_not_ws c1 hs1
  have hw2 := hexDigit_not_ws c2 hs2
  have ht1 := pyTransformChar_hexDigit c1 hs1
  have ht2 := pyTransformChar_hexDigit c2 hs2
  obtain ⟨hp1, hm1, hu1, hxx1, hXX1⟩ := hexDigit_not_special c1 hs1
  obtain ⟨hp2, hm2, hu2, hxx2, hXX2⟩ := hexDigit_not_special c2 hs2
  unfold pyIntHexChars
  simp only [List.map_cons, List.map_nil, ht1, ht2]
  simp only [List.dropWhile_cons, List.dropWhile_nil, hw1, hw2,
    Bool.false_eq_true, if_false, List.reverse_cons, List.reverse_nil,
    List.nil_append, List.cons_append, List.singleton_append]
  unfold afterSign
  dsimp only
  rw [if_neg hp1, if_neg hm1]
  unfold afterBase
  dsimp only
  rw [if_neg (fun hand => hand.2.elim hxx2 hXX2)]
  unfold parseHexDigits
  dsimp only
  rw [hx1]
  dsimp only
  unfold parseHexRest
  dsimp only
  rw [if_neg hu2, hx2]
  simp [parseHexRest]

/-- Spec-side definition of the DownlinkFormat, following the spec's
words: "a small integer derived deterministically from the first two
hexadecimal characters of a RawMessage's payload (interpreted as one
byte, right-shifted by 3 bits)"; undefined when the first two characters
are not hexadecimal digits. -/
def dfSpec (msg : String) : Option Int :=
  match msg.data with
  | c1 :: c2 :: _ =>
    match hexDigitVal c1, hexDigitVal c2 with
    | some h1, some h2 => some (((h1 * 16 + h2) >>> 3 : Nat) : Int)
    | _, _ => none
  | _ => none

/-- C7: whenever the spec-side reading is defined (the message starts
with two hexadecimal characters), the downlink format derived by line 55
of `app.py` equals the value of those two characters as one hexadecimal
byte right-shifted by 3 bits; both sides are pure functions of the
message header. -/
theorem df_matches_spec (msg : String) (d : Int) (h : dfSpec msg = some d) :
    dfOf msg = some d := by
  unfold dfSpec at h
  cases hd : msg.data with
  | nil => rw [hd] at h; cases h
  | cons c1 tl =>
    cases tl with
    | nil => rw [hd] at h; cases h
    | cons c2 rest =>
      rw [hd] at h
      dsimp only at h
      cases hx1 : hexDigitVal c1 with
      | none => rw [hx1] at h; cases h
      | some h1 =>
        cases hx2 : hexDigitVal c2 with
        | none => rw [hx1, hx2] at h; cases h
        | some h2 =>
          rw [hx1, hx2] at h
          dsimp only at h
          injection h with h
          unfold dfOf
          rw [hd]
          have htake : (c1 :: c2 :: rest).take 2 = [c1, c2] := rfl
          rw [htake, pyIntHexChars_two_hex c1 c2 h1 h2 hx1 hx2]
          dsimp only [Option.map_some']
          rw [← h, Nat.shiftRight_eq_div_pow]
          norm_num
          exact (Int.ofNat_fdiv (h1 * 16 + h2) 8).symm

/-- Witness for C7 on the spec's end-to-end scenario message
(`8D` → `0x8D = 141`, `141 >> 3 = 17`). -/
theorem df_matches_spec_w :
    dfSpec "8D4840D6202CC371C32CE0576098" = some 17 ∧
      dfOf "8D4840D6202CC371C32CE0576098" = some 17 :=
  ⟨by decide, df_matches_spec "8D4840D6202CC371C32CE0576098" 17 (by decide)⟩

/-- C4 (amended): one iteration of the ingestion loop completes without
an uncaught exception for every delivered byte sequence — no sentinel
found, short chunks, or a wrong terminator never raise — except
precisely when the candidate's terminator matches and the 28-byte
payload either is not valid UTF-8 (line 53 raises
`UnicodeDecodeError`) or its first two decoded characters do not parse
as a hexadecimal integer under Python's `int(s, 16)` semantics,
including CPython's pre-parse mapping of Unicode decimal digits and
Unicode whitespace to ASCII (line 55 raises `ValueError`); such an
exception is uncaught and ends the loop's thread. -/
theorem iteration_no_error_iff (cap : DecodeCap) (st : SysState)
    (stream : List Nat) (now : Int) :
    (iterBytes cap st stream now).2 = none ↔
      (match socketFindStar stream with
       | none => True
       | some rest =>
         ¬ (rest.take 29).getLast? = some 59 ∨
           (∃ cs, utf8Decode (rest.take 29).dropLast = some cs ∧
             ¬ pyIntHexChars (cs.take 2) = none)) := by
  unfold iterBytes
  cases hf : socketFindStar stream with
  | none => simp
  | some rest =>
    dsimp only
    by_cases hterm : (rest.take 29).getLast? = some 59
    · rw [if_pos hterm]
      cases hu : utf8Decode (rest.take 29).dropLast with
      | none => simp [hterm]
      | some cs =>
        dsimp only
        rw [processMsg_err_iff]
        unfold dfOf
        simp [hterm, Option.map_eq_none']
    · rw [if_neg hterm]
      simp [hterm]

/-- C1: a `RawMessage` consumed by the ingestion loop mutates no field of
the Shared Packet State (message, icao, callsign, altitude, timestamp)
unless its derived downlink format is 17 and the checksum capability
reports no error; in particular non-{17,20,21} formats, formats 20 and
21, and format-17 messages failing the checksum leave every field
unchanged (and so does a message whose header does not even parse). -/
theorem packet_unchanged_unless_valid_df17 (cap : DecodeCap) (st : SysState)
    (msg : String) (now : Int)
    (h : ¬ (dfOf msg = some 17 ∧ (cap.msgCRC msg).2 = false)) :
    (processMsg cap st msg now).1.packet = st.packet :=
  (processMsg_stable cap st msg now h).1

/-- Witness for C1 at a concrete downlink-format-20 message. -/
theorem packet_unchanged_unless_valid_df17_w :
    ¬ (dfOf "A0001838CA380031440000F24177" = some 17 ∧
        (capNone.msgCRC "A0001838CA380031440000F24177").2 = false) ∧
      (processMsg capNone initState "A0001838CA380031440000F24177" 3).1.packet =
        initState.packet :=
  ⟨by decide,
    packet_unchanged_unless_valid_df17 capNone initState
      "A0001838CA380031440000F24177" 3 (by decide)⟩

/-- C3 counterexample: on a downlink-format-20 message (header `A0`,
`0xA0 >> 3 = 20`), line 60 of `app.py` does invoke the checksum
capability `msg_crc` — the invocation counter increases — contradicting
the claim that the validator is never invoked when the format is not
17. -/
theorem crc_invoked_on_df20 :
    dfOf "A0001838CA380031440000F24177" = some 20 ∧
      (processMsg capNone initState "A0001838CA380031440000F24177" 3).1.crcCalls =
        initState.crcCalls + 1 := by
  decide

/-- C3 (amended): the checksum capability is invoked exactly when the
derived downlink format is one of {17, 20, 21}; it is never invoked for
unrecognized formats (or unparsable headers), and for formats 20 and 21
it is invoked even though the message is then discarded regardless of
the result. -/
theorem crc_invoked_iff_decodable (cap : DecodeCap) (st : SysState)
    (msg : String) (now : Int) :
    (processMsg cap st msg now).1.crcCalls =
      match dfOf msg with
      | none => st.crcCalls
      | some df =>
        if df = 17 ∨ df = 20 ∨ df = 21 then st.crcCalls + 1 else st.crcCalls := by
  unfold processMsg
  cases hdf : dfOf msg with
  | none => rfl
  | some df =>
    dsimp only
    by_cases hdec : df = 17 ∨ df = 20 ∨ df = 21
    · rw [if_pos hdec, if_pos hdec]
      by_cases herr : (cap.msgCRC msg).2 = true ∧ df = 17
      · simp [herr]
      · rw [if_neg herr]
        by_cases h17 : df ≠ 17
        · simp [h17]
        · simp [h17]
    · rw [if_neg hdec, if_neg hdec]

/-- C8: `connect_tcpserver` makes exactly one connection attempt, with
the given timeout installed on the socket beforehand; on any failure
(timeout, refusal, or other exception) it returns a not-ok result
without retrying, and it never raises (it is a total function whose bare
`except:` absorbs every exception). -/
theorem connect_tcpserver_single_attempt (host : String) (port : Int)
    (timeout : Int) (outcome : ConnOutcome) :
    (connect_tcpserver host port timeout outcome).2 = 1 ∧
      ((connect_tcpserver host port timeout outcome).1.2 = false ↔
        outcome = ConnOutcome.ok) ∧
      (connect_tcpserver host port timeout outcome).1.1.timeoutSet = some timeout := by
  cases outcome <;> simp [connect_tcpserver]

end ADSB
